import Mathlib

/-!
Verification development for the codesmith session engine.

The Python sources are shallowly embedded: strings are modelled as
`List Char` (Python indexes strings by characters), dictionaries as
functions `String → Option _`, and fallible operations return `Except`.
Wall-clock time, asyncio scheduling, the `pyte` terminal emulator and the
operating system (processes, file descriptors, the real file system) are
external to the embedded code; where a function consumes their output the
embedding takes that output as an explicit argument.
-/

/-- Character constants used by the chunker ("`", "\n", " "). -/
def btChar : Char := Char.ofNat 96

def nlChar : Char := '\n'

def spChar : Char := ' '

/-- Python `str.strip` whitespace test (`space, tab, newline, CR, VT, FF`). -/
def pyIsSpace (c : Char) : Bool :=
  c = ' ' || c = '\t' || c = '\n' || c = '\r' || c = '\x0b' || c = '\x0c'

/-- Python `str.rstrip()`: drop trailing whitespace. -/
def rstripL (cs : List Char) : List Char :=
  (cs.reverse.dropWhile pyIsSpace).reverse

/-- Python `str.lstrip()`: drop leading whitespace. -/
def lstripL (cs : List Char) : List Char :=
  cs.dropWhile pyIsSpace

/-- Python `str.strip()`: drop whitespace at both ends. -/
def stripL (cs : List Char) : List Char :=
  lstripL (rstripL cs)

/-- Scanner for Python `text.count("\x60\x60\x60")` (non-overlapping count of
triple backticks, scanning left to right): `run` is the number of consecutive
backticks seen so far, reset after each completed triple. -/
def cfAux : List Char → Nat → Nat
  | [], _ => 0
  | c :: rest, run =>
    if c = btChar then
      if run = 2 then cfAux rest 0 + 1 else cfAux rest (run + 1)
    else cfAux rest 0

/-- Python `chunk_text.count("\x60\x60\x60")` from `output_parser.py`. -/
def countFences (cs : List Char) : Nat :=
  cfAux cs 0

/-- The backtick-run counter left by scanning `cs` starting from `run`;
used to reason about `cfAux` over list append. -/
def runEnd : List Char → Nat → Nat
  | [], run => run
  | c :: rest, run =>
    if c = btChar then
      if run = 2 then runEnd rest 0 else runEnd rest (run + 1)
    else runEnd rest 0

/-- Python `hay.rfind(needle)`: start index of the last occurrence of
`needle` in `hay`, `none` when absent (Python returns `-1`). -/
def rfindSub (needle hay : List Char) : Option Nat :=
  ((List.range (hay.length + 1)).filter (fun i => needle.isPrefixOf (hay.drop i))).getLast?

/-- Python comparison `idx > limit // 2` applied to an `rfind` result
(`-1 > limit // 2` is always false, hence `none ↦ none`). -/
def candOk (half : Nat) (o : Option Nat) : Option Nat :=
  match o with
  | some i => if half < i then some i else none
  | none => none

/-- The fence / paragraph / line / word patterns searched by the chunker. -/
def fenceNlPat : List Char := [btChar, btChar, btChar, nlChar]

def paraPat : List Char := [nlChar, nlChar]

/-- Split-point search of `chunk_for_discord` (`output_parser.py` lines
193-215): fenced-block end, paragraph break, line break, space — each
accepted only past `limit // 2` — else a hard cut at `limit`. -/
def computeSplit (limit : Nat) (chunk : List Char) : Nat :=
  match candOk (limit / 2) (rfindSub fenceNlPat chunk) with
  | some i => i + 4
  | none =>
    match candOk (limit / 2) (rfindSub paraPat chunk) with
    | some i => i + 2
    | none =>
      match candOk (limit / 2) (rfindSub [nlChar] chunk) with
      | some i => i + 1
      | none =>
        match candOk (limit / 2) (rfindSub [spChar] chunk) with
        | some i => i + 1
        | none => limit

/-- Closing fence appended to a chunk with an odd fence count ("\n\x60\x60\x60"). -/
def closeFencePat : List Char := [nlChar, btChar, btChar, btChar]

/-- Re-opening fence prepended to the next chunk ("\x60\x60\x60\n"). -/
def openFencePat : List Char := [btChar, btChar, btChar, nlChar]

/-- The `while remaining:` loop of `chunk_for_discord`, with explicit fuel.
The Python loop does not terminate for some limits below 6 (the re-opened
fence can be as long as the consumed split); fuel exhaustion yields `[]`,
and every theorem below either holds for all fuel or supplies enough. -/
def chunkLoop (limit : Nat) : Nat → List Char → List (List Char)
  | 0, _ => []
  | fuel + 1, remaining =>
    if remaining = [] then []
    else if remaining.length ≤ limit then [remaining]
    else
      let chunk := remaining.take limit
      let sp := computeSplit limit chunk
      let chunk_text := remaining.take sp
      if countFences chunk_text % 2 = 1 then
        (rstripL chunk_text ++ closeFencePat) ::
          chunkLoop limit fuel (openFencePat ++ remaining.drop sp)
      else
        chunk_text :: chunkLoop limit fuel (remaining.drop sp)

/-- `chunk_for_discord(text, limit)` from `output_parser.py` (lines 170-230),
over `List Char`. -/
def chunk_for_discord (text : List Char) (limit : Nat) : List (List Char) :=
  if text.length ≤ limit then (if text = [] then [] else [text])
  else chunkLoop limit text.length text

/-- Texts containing no backtick character at all. -/
def noBT (cs : List Char) : Bool :=
  cs.all (fun c => c != btChar)

/-- Python substring test `needle in hay`. -/
def containsSub (hay needle : List Char) : Bool :=
  (List.range (hay.length + 1)).any (fun i => needle.isPrefixOf (hay.drop i))

/-- Lower-casing used by `get_statusbar` (`last_line.lower()`); the
statusbar keywords are ASCII, where Python and Lean lower-casing agree. -/
def lowerL (cs : List Char) : List Char :=
  cs.map Char.toLower

/-- The fixed keyword list of `TerminalEmulator.get_statusbar`. -/
def statusbarKeywords : List (List Char) :=
  ["token".toList, "cost".toList, "model".toList, "context".toList,
   "$".toList, "sonnet".toList, "opus".toList, "haiku".toList]

/-- `TerminalEmulator.get_statusbar` (`output_parser.py` lines 83-109) as a
function of the rendered screen rows (the `pyte` screen is external; its
`display` list is taken as input): strip the last row, return it when its
lower-cased form contains a keyword. -/
def get_statusbar (display : List (List Char)) : Option (List Char) :=
  match display.getLast? with
  | none => none
  | some last =>
    let lastLine := stripL last
    if statusbarKeywords.any (fun kw => containsSub (lowerL lastLine) kw) then
      some lastLine
    else none

/-- `OutputBuffer` (`output_parser.py`): the delta state is the last full
reconstructed screen content. The raw byte buffer and the statusbar cache
play no role in the delta computation and are omitted. -/
structure OutputBuffer where
  last_content : List Char
deriving DecidableEq

/-- `OutputBuffer.feed` (`output_parser.py` lines 275-304), parametrised by
the screen content the emulator reconstructs after the fed bytes (the
`pyte` emulator is an external library). Returns the updated buffer and the
emitted `ParsedOutput.content`, which is the delta passed through Python
`.strip()`. -/
def ob_feed (b : OutputBuffer) (current : List Char) : OutputBuffer × List Char :=
  let new_content :=
    if b.last_content.isPrefixOf current then current.drop b.last_content.length
    else current
  (⟨current⟩, stripL new_content)

/-- Minimal JSON values, for the raw payloads inspected by
`format_tool_use` (floats are modelled as exact rationals). -/
inductive Json where
  | null : Json
  | bool : Bool → Json
  | num : ℚ → Json
  | str : String → Json
  | arr : List Json → Json
  | obj : List (String × Json) → Json

/-- Python `dict.get(k)` on a parsed JSON object (keys are unique in a
Python dict; the first binding wins). -/
def jget (fields : List (String × Json)) (k : String) : Option Json :=
  (fields.find? (fun kv => kv.fst == k)).map (fun kv => kv.snd)

/-- `StreamEvent` from `stream_handler.py`: type tag, extracted content,
raw payload, and the metadata extracted for result events. -/
structure StreamEvent where
  type : String
  content : String := ""
  raw : List (String × Json) := []
  session_id : Option String := none
  model : Option String := none
  input_tokens : Int := 0
  output_tokens : Int := 0
  cost_usd : ℚ := 0

/-- Python truthiness of an optional string (`None` and `""` are falsy). -/
def truthy : Option String → Bool
  | none => false
  | some s => s ≠ ""

/-- `StatusInfo` from `stream_parser.py`. -/
structure StatusInfo where
  model : Option String := none
  input_tokens : Int := 0
  output_tokens : Int := 0
  cost_usd : ℚ := 0
  session_id : Option String := none
deriving DecidableEq

/-- `StatusInfo.from_event` (`stream_parser.py` lines 129-145). -/
def StatusInfo.from_event (e : StreamEvent) : StatusInfo :=
  { model := e.model
    input_tokens := e.input_tokens
    output_tokens := e.output_tokens
    cost_usd := e.cost_usd
    session_id := e.session_id }

/-- `StreamBuffer` from `stream_parser.py` (delta accumulator). -/
structure StreamBuffer where
  content_buffer : String := ""
  last_flush : String := ""
  is_streaming : Bool := false
  flush_threshold : Nat := 500
deriving DecidableEq

/-- `StreamBuffer._flush`. -/
def sb_flush (b : StreamBuffer) : StreamBuffer × String :=
  ({ b with content_buffer := "", last_flush := b.content_buffer }, b.content_buffer)

/-- `StreamBuffer.feed` (`stream_parser.py` lines 35-78): returns the
updated buffer and the content to send, `none` while buffering. -/
def sb_feed (b : StreamBuffer) (e : StreamEvent) : StreamBuffer × Option String :=
  if e.type = "assistant" then
    let b := { b with is_streaming := false }
    if e.content ≠ "" then ({ b with content_buffer := "" }, some e.content)
    else (b, none)
  else if e.type = "content_block_delta" then
    let b := { b with is_streaming := true,
                      content_buffer := b.content_buffer ++ e.content }
    if b.flush_threshold ≤ b.content_buffer.length then
      let (b, c) := sb_flush b
      (b, some c)
    else (b, none)
  else if e.type = "result" then
    let b := { b with is_streaming := false }
    if b.content_buffer ≠ "" then
      let (b, c) := sb_flush b
      (b, some c)
    else (b, none)
  else if e.type = "error" then
    ({ b with is_streaming := false }, some ("**Error:** " ++ e.content))
  else (b, none)

/-- `format_tool_use` (`stream_parser.py` lines 172-197): collect tool-use
block names from an assistant event's raw message payload. Non-string tool
names (which Python would stringify) are abstracted as "unknown". -/
def format_tool_use (e : StreamEvent) : Option String :=
  if e.type = "assistant" then
    let blocks : List Json :=
      match jget e.raw "message" with
      | some (Json.obj mf) =>
        match jget mf "content" with
        | some (Json.arr xs) => xs
        | _ => []
      | _ => []
    let tool_uses : List String := blocks.filterMap (fun block =>
      match block with
      | Json.obj bf =>
        match jget bf "type" with
        | some (Json.str t) =>
          if t = "tool_use" then
            match jget bf "name" with
            | some (Json.str n) => some ("\x60" ++ n ++ "\x60")
            | _ => some "\x60unknown\x60"
          else none
        | _ => none
      | _ => none)
    if tool_uses ≠ [] then
      some ("*Using tools: " ++ String.intercalate ", " tool_uses ++ "*")
    else none
  else none

/-- `chunk_for_discord` at the Discord default limit (2000), on `String`,
as called by `StreamOutputFormatter.feed`. -/
def chunk_for_discord_str (s : String) : List String :=
  (chunk_for_discord s.toList 2000).map List.asString

/-- `StreamOutputFormatter` (`stream_parser.py` lines 200-268): buffer plus
externally visible status snapshot. -/
structure StreamOutputFormatter where
  buffer : StreamBuffer := {}
  status : StatusInfo := {}

/-- `StreamOutputFormatter.feed` (`stream_parser.py` lines 216-242). -/
def fmt_feed (f : StreamOutputFormatter) (e : StreamEvent) :
    StreamOutputFormatter × List String :=
  let toolChunks : List String :=
    match format_tool_use e with
    | some m => [m]
    | none => []
  let (b, content?) := sb_feed f.buffer e
  let contentChunks : List String :=
    match content? with
    | some c => if c ≠ "" then chunk_for_discord_str c else []
    | none => []
  let status := if e.type = "result" then StatusInfo.from_event e else f.status
  ({ buffer := b, status := status }, toolChunks ++ contentChunks)

/-- A child process handle as the embedding sees it: only the return code
matters (`None` while running). -/
structure Proc where
  returncode : Option Int := none
deriving DecidableEq

/-- `StreamSession` from `stream_handler.py`. `sid` models Python object
identity (each created session is a distinct object); the workspace path,
auth method and timestamps play no role in the verified claims. -/
structure StreamSession where
  sid : Nat := 0
  session_id : Option String := none
  model : Option String := none
  total_input_tokens : Int := 0
  total_output_tokens : Int := 0
  total_cost_usd : ℚ := 0
  process : Option Proc := none
deriving DecidableEq

/-- `StreamSession.is_busy` (`stream_handler.py` lines 76-78). -/
def is_busy (s : StreamSession) : Bool :=
  match s.process with
  | some p => p.returncode = none
  | none => false

/-- The per-result-event state update inside `StreamSession.send_message`
(`stream_handler.py` lines 165-171): folding happens only when the event is
a result carrying a truthy `session_id`; the model is replaced only when
the event carries a truthy one. -/
def fold_result_event (s : StreamSession) (e : StreamEvent) : StreamSession :=
  if e.type = "result" ∧ truthy e.session_id then
    { s with
      session_id := e.session_id
      model := if truthy e.model then e.model else s.model
      total_input_tokens := s.total_input_tokens + e.input_tokens
      total_output_tokens := s.total_output_tokens + e.output_tokens
      total_cost_usd := s.total_cost_usd + e.cost_usd }
  else s

/-- The events actually consumed from a stream before it stops: all of
them, or a truncation when the iteration is abandoned early (exception or
cancellation of the surrounding task). -/
def consumedEvents (abortAfter : Option Nat) (events : List StreamEvent) : List StreamEvent :=
  match abortAfter with
  | none => events
  | some n => events.take n

/-- Big-step model of `StreamSession.send_message` (`stream_handler.py`
lines 120-182): `events` are the events `_read_events` would yield from
the spawned subprocess, `abortAfter` models an early end of the iteration.
A busy session raises (`RuntimeError`) before anything is spawned; the
`finally:` block clears the process handle on every exit path. -/
def send_message (s : StreamSession) (events : List StreamEvent)
    (abortAfter : Option Nat) : StreamSession × Except String (List StreamEvent) :=
  if is_busy s then (s, Except.error "Session is busy processing another request")
  else
    let consumed := consumedEvents abortAfter events
    let running := { s with process := some { returncode := none } }
    let s' := consumed.foldl fold_result_event running
    ({ s' with process := none }, Except.ok consumed)

/-- `StreamSession.cancel` (`stream_handler.py` lines 296-304): when a
request is running, terminate (waiting and force-killing are external
process effects) and clear the process handle. -/
def cancel (s : StreamSession) : StreamSession :=
  match s.process with
  | some p => if p.returncode = none then { s with process := none } else s
  | none => s

/-- `AuthMethod` from `auth.py`. -/
inductive AuthMethod where
  | oauth : AuthMethod
  | api_key : AuthMethod
  | none : AuthMethod
deriving DecidableEq

/-- Failure modes of `start_session`: the `ValueError` when no
authentication is configured, and the `TypeError` raised by the call
`setup_sandbox(user_id, auth_method)` in `session_manager.py` line 188
(`sandbox_runner.setup_sandbox` accepts a single argument). -/
inductive StartError where
  | noAuth : StartError
  | typeMismatch : StartError
deriving DecidableEq

/-- Pointwise update of a dictionary modelled as a function. -/
def fnSet {α β : Type} [DecidableEq α] (m : α → β) (k : α) (v : β) : α → β :=
  fun u => if u = k then v else m u

/-- A user workspace directory: the `tmp` sub-directory that
`cleanup_sandbox` may delete, and all other contents. -/
structure Workspace where
  hasTmp : Bool
  other : List String
deriving DecidableEq

/-- A PTY-variant session as far as the manager claims need it: the
identity of its transport. -/
structure PtySessionModel where
  tid : Nat
deriving DecidableEq

/-- State of `SessionManager` (`session_manager.py`) together with the
parts of the world it mutates: live transport identities and the
workspace file system. -/
structure PtyMgr where
  sessions : String → Option PtySessionModel
  callbacks : String → Bool
  live : List Nat
  fs : String → Option Workspace
  nextTid : Nat

/-- `cleanup_sandbox(user_id, remove_workspace=False)`
(`sandbox_runner.py` lines 111-128): when the workspace exists, delete its
`tmp` sub-directory and nothing else. -/
def cleanup_sandbox_fs (fs : String → Option Workspace) (uid : String) :
    String → Option Workspace :=
  fun u =>
    if u = uid then
      match fs uid with
      | some w => some { w with hasTmp := false }
      | none => none
    else fs u

/-- `SessionManager.stop_session` (`session_manager.py` lines 212-235):
pop the session; when present, cancel its output task (external), terminate
its PTY transport, and clean the sandbox keeping the workspace; always drop
the output callback. -/
def pty_stop_session (m : PtyMgr) (uid : String) : PtyMgr :=
  match m.sessions uid with
  | some s =>
    { m with
      sessions := fnSet m.sessions uid Option.none
      live := m.live.filter (fun t => t != s.tid)
      fs := cleanup_sandbox_fs m.fs uid
      callbacks := fnSet m.callbacks uid false }
  | Option.none => { m with callbacks := fnSet m.callbacks uid false }

/-- `SessionManager.start_session` (`session_manager.py` lines 155-210):
stop any existing session first, then resolve authentication (taken here
as the resolved value) and fail on `NONE`; otherwise the call
`setup_sandbox(user_id, auth_method)` raises a `TypeError` (arity
mismatch with `sandbox_runner.setup_sandbox`), so no session is created. -/
def pty_start_session (m : PtyMgr) (uid : String) (auth : AuthMethod) :
    PtyMgr × Except StartError PtySessionModel :=
  let m1 := if (m.sessions uid).isSome then pty_stop_session m uid else m
  if auth = AuthMethod.none then (m1, Except.error StartError.noAuth)
  else (m1, Except.error StartError.typeMismatch)

/-- State of `StreamSessionManager` (`stream_session_manager.py`). -/
structure StreamMgr where
  sessions : String → Option StreamSession
  callbacks : String → Bool
  nextSid : Nat

/-- `StreamSessionManager.start_session` (`stream_session_manager.py`
lines 123-165): an existing session is returned unchanged (before any
authentication check); otherwise fail on `NONE` auth, else create a fresh
session. -/
def stream_start_session (m : StreamMgr) (uid : String) (auth : AuthMethod) :
    StreamMgr × Except StartError StreamSession :=
  match m.sessions uid with
  | some s => (m, Except.ok s)
  | Option.none =>
    if auth = AuthMethod.none then (m, Except.error StartError.noAuth)
    else
      let s : StreamSession := { sid := m.nextSid }
      ({ m with sessions := fnSet m.sessions uid (some s), nextSid := m.nextSid + 1 },
       Except.ok s)

/-- `StreamSessionManager.stop_session` (`stream_session_manager.py` lines
167-173): pop the session (cancelling its in-flight request affects only
the dropped session object) and drop the callback. -/
def stream_stop_session (m : StreamMgr) (uid : String) : StreamMgr :=
  { m with
    sessions := fnSet m.sessions uid Option.none
    callbacks := fnSet m.callbacks uid false }

/-- A stream manager with no sessions. -/
def emptyStreamMgr : StreamMgr :=
  { sessions := fun _ => Option.none, callbacks := fun _ => false, nextSid := 0 }

/-- A stream manager holding one session (id 0) for user "A". -/
def sampleStreamMgr : StreamMgr :=
  { sessions := fun u => if u = "A" then some { sid := 0 } else Option.none
    callbacks := fun u => u == "A"
    nextSid := 1 }

/-- A PTY manager holding one session for user "A" on live transport 0,
with a workspace containing a temp directory and one other file. -/
def samplePtyMgr : PtyMgr :=
  { sessions := fun u => if u = "A" then some { tid := 0 } else Option.none
    callbacks := fun u => u == "A"
    live := [0]
    fs := fun u =>
      if u = "A" then some { hasTmp := true, other := ["f.txt"] } else Option.none
    nextTid := 1 }

/-- A found `rfind` index leaves room for the needle inside the haystack. -/
theorem rfindSub_bound {needle hay : List Char} {i : Nat}
    (h : rfindSub needle hay = some i) : i + needle.length ≤ hay.length := by
  unfold rfindSub at h
  have hmem : i ∈ (List.range (hay.length + 1)).filter
      (fun j => needle.isPrefixOf (hay.drop j)) :=
    List.mem_of_mem_getLast? (Option.mem_def.mpr h)
  rw [List.mem_filter] at hmem
  obtain ⟨hr, hp⟩ := hmem
  rw [List.mem_range] at hr
  have hpre : needle <+: hay.drop i := by
    rwa [ List.isPrefixOf_iff_prefix] at hp
  have hlen := hpre.length_le
  rw [List.length_drop] at hlen
  omega

/-- `candOk` only passes through the underlying `rfind` result. -/
theorem candOk_eq_some {h : Nat} {o : Option Nat} {i : Nat}
    (hc : candOk h o = some i) : o = some i := by
  cases o with
  | none => simp [candOk] at hc
  | some j =>
    simp only [candOk] at hc
    split at hc
    · exact hc
    · cases hc

/-- The chosen split point never exceeds the limit (each candidate index
leaves room for its pattern inside the inspected window). -/
theorem computeSplit_le {limit : Nat} {chunk : List Char}
    (h : chunk.length ≤ limit) : computeSplit limit chunk ≤ limit := by
  unfold computeSplit
  split
  · next i h1 =>
    have hb := rfindSub_bound (candOk_eq_some h1)
    have : fenceNlPat.length = 4 := rfl
    omega
  · split
    · next i h2 =>
      have hb := rfindSub_bound (candOk_eq_some h2)
      have : paraPat.length = 2 := rfl
      omega
    · split
      · next i h3 =>
        have hb := rfindSub_bound (candOk_eq_some h3)
        have : [nlChar].length = 1 := rfl
        omega
      · split
        · next i h4 =>
          have hb := rfindSub_bound (candOk_eq_some h4)
          have : [spChar].length = 1 := rfl
          omega
        · exact Nat.le_refl limit

/-- The chosen split point is positive whenever the limit is. -/
theorem computeSplit_pos {limit : Nat} {chunk : List Char}
    (h : 1 ≤ limit) : 1 ≤ computeSplit limit chunk := by
  unfold computeSplit
  split
  · omega
  · split
    · omega
    · split
      · omega
      · split
        · omega
        · exact h

/-- Right-stripping never lengthens a string. -/
theorem rstripL_length_le (cs : List Char) : (rstripL cs).length ≤ cs.length := by
  unfold rstripL
  rw [List.length_reverse]
  calc (cs.reverse.dropWhile pyIsSpace).length
      ≤ cs.reverse.length := (List.dropWhile_sublist _).length_le
    _ = cs.length := List.length_reverse cs

/-- A string is its right-stripped core followed by trailing whitespace. -/
theorem rstripL_decomp (cs : List Char) :
    ∃ ws, cs = rstripL cs ++ ws ∧ ∀ c ∈ ws, pyIsSpace c = true := by
  refine ⟨(cs.reverse.takeWhile pyIsSpace).reverse, ?_, ?_⟩
  · conv_lhs => rw [← List.reverse_reverse cs,
      ← List.takeWhile_append_dropWhile pyIsSpace cs.reverse]
    rw [List.reverse_append]
    rfl
  · intro c hc
    rw [List.mem_reverse] at hc
    exact List.mem_takeWhile_imp hc

/-- The fence scanner distributes over append via the run counter. -/
theorem cfAux_append : ∀ (xs ys : List Char) (r : Nat),
    cfAux (xs ++ ys) r = cfAux xs r + cfAux ys (runEnd xs r)
  | [], ys, r => by simp [cfAux, runEnd]
  | x :: xs, ys, r => by
    have hc : ∀ (t : List Char) (q : Nat), cfAux (x :: t) q =
        if x = btChar then (if q = 2 then cfAux t 0 + 1 else cfAux t (q + 1))
        else cfAux t 0 := fun t q => rfl
    have hre : runEnd (x :: xs) r =
        if x = btChar then (if r = 2 then runEnd xs 0 else runEnd xs (r + 1))
        else runEnd xs 0 := rfl
    rw [List.cons_append, hc, hc, hre]
    by_cases hx : x = btChar
    · by_cases hr : r = 2
      · simp only [if_pos hx, if_pos hr, cfAux_append xs ys 0]
        omega
      · simp only [if_pos hx, if_neg hr, cfAux_append xs ys (r + 1)]
    · simp only [if_neg hx, cfAux_append xs ys 0]

/-- A backtick-free string contains no fences, from any scanner state. -/
theorem cfAux_eq_zero : ∀ (ys : List Char), (∀ c ∈ ys, c ≠ btChar) → ∀ r, cfAux ys r = 0
  | [], _, _ => rfl
  | y :: ys, h, r => by
    have hy : y ≠ btChar := h y (List.mem_cons_self y ys)
    have ih := cfAux_eq_zero ys (fun c hc => h c (List.mem_cons_of_mem y hc))
    simp [cfAux, hy, ih]

/-- Whitespace characters are not backticks. -/
theorem pyIsSpace_ne_bt {c : Char} (h : pyIsSpace c = true) : c ≠ btChar := by
  intro hc
  rw [hc] at h
  exact absurd h (by decide)

/-- Right-stripping does not change the fence count. -/
theorem countFences_rstrip (cs : List Char) :
    countFences (rstripL cs) = countFences cs := by
  obtain ⟨ws, hdec, hws⟩ := rstripL_decomp cs
  have hz : ∀ r, cfAux ws r = 0 :=
    cfAux_eq_zero ws (fun c hc => pyIsSpace_ne_bt (hws c hc))
  conv_rhs => rw [countFences, hdec, cfAux_append]
  rw [hz, countFences]
  omega

/-- Appending the repair fence `"\n"++fence` adds exactly one fence. -/
theorem countFences_close (xs : List Char) :
    countFences (xs ++ closeFencePat) = countFences xs + 1 := by
  rw [countFences, cfAux_append, countFences]
  congr 1

/-- Backtick-freedom is inherited by any sub-collection. -/
theorem noBT_sub {cs ds : List Char} (hsub : ds ⊆ cs) (h : noBT cs = true) :
    noBT ds = true := by
  rw [noBT, List.all_eq_true] at *
  intro c hc
  exact h c (hsub hc)

/-- A backtick-free string has fence count zero. -/
theorem countFences_of_noBT {cs : List Char} (h : noBT cs = true) :
    countFences cs = 0 := by
  rw [noBT, List.all_eq_true] at h
  exact cfAux_eq_zero cs (fun c hc => bne_iff_ne.mp (h c hc)) 0

/-- Unfolding of one `chunkLoop` iteration. -/
theorem chunkLoop_succ (limit fuel : Nat) (remaining : List Char) :
    chunkLoop limit (fuel + 1) remaining =
      if remaining = [] then []
      else if remaining.length ≤ limit then [remaining]
      else
        if countFences (remaining.take (computeSplit limit (remaining.take limit))) % 2 = 1 then
          (rstripL (remaining.take (computeSplit limit (remaining.take limit))) ++ closeFencePat) ::
            chunkLoop limit fuel
              (openFencePat ++ remaining.drop (computeSplit limit (remaining.take limit)))
        else
          remaining.take (computeSplit limit (remaining.take limit)) ::
            chunkLoop limit fuel (remaining.drop (computeSplit limit (remaining.take limit))) :=
  rfl

/-- Every piece the loop emits is at most `limit + 4` characters long. -/
theorem chunkLoop_length_le (limit : Nat) : ∀ (fuel : Nat) (rem : List Char),
    ∀ c ∈ chunkLoop limit fuel rem, c.length ≤ limit + 4
  | 0, rem => by simp [chunkLoop]
  | fuel + 1, rem => by
    intro c hc
    rw [chunkLoop_succ] at hc
    split at hc
    · simp at hc
    · split at hc
      · next hlen =>
        rw [List.mem_singleton] at hc
        subst hc
        omega
      · next hlen =>
        have hsple : computeSplit limit (rem.take limit) ≤ limit :=
          computeSplit_le (by rw [List.length_take]; omega)
        have htake : (rem.take (computeSplit limit (rem.take limit))).length ≤ limit := by
          rw [List.length_take]
          omega
        split at hc
        · rcases List.mem_cons.mp hc with hceq | hcmem
          · subst hceq
            rw [List.length_append]
            have h1 := rstripL_length_le (rem.take (computeSplit limit (rem.take limit)))
            have h4 : closeFencePat.length = 4 := rfl
            omega
          · exact chunkLoop_length_le limit fuel _ c hcmem
        · rcases List.mem_cons.mp hc with hceq | hcmem
          · subst hceq
            omega
          · exact chunkLoop_length_le limit fuel _ c hcmem

/-- Membership in the `dropLast` of a cons. -/
theorem mem_dropLast_cons {α : Type} {c x : α} {l : List α}
    (h : c ∈ (x :: l).dropLast) : c = x ∨ c ∈ l.dropLast := by
  cases l with
  | nil => simp at h
  | cons y ys =>
    rw [List.dropLast_cons₂] at h
    exact List.mem_cons.mp h

/-- Every piece the loop emits, except possibly the last one, has an even
fence count (an odd piece is repaired; only the loop-exit piece is not). -/
theorem chunkLoop_nonlast_even (limit : Nat) : ∀ (fuel : Nat) (rem : List Char),
    ∀ c ∈ (chunkLoop limit fuel rem).dropLast, countFences c % 2 = 0
  | 0, rem => by simp [chunkLoop]
  | fuel + 1, rem => by
    intro c hc
    rw [chunkLoop_succ] at hc
    split at hc
    · simp at hc
    · split at hc
      · simp at hc
      · split at hc
        · next hodd =>
          rcases mem_dropLast_cons hc with hceq | hcmem
          · subst hceq
            rw [countFences_close, countFences_rstrip]
            omega
          · exact chunkLoop_nonlast_even limit fuel _ c hcmem
        · next heven =>
          rcases mem_dropLast_cons hc with hceq | hcmem
          · subst hceq
            omega
          · exact chunkLoop_nonlast_even limit fuel _ c hcmem

/-- On backtick-free input the loop needs no repair: with enough fuel the
pieces concatenate back to the input and each piece fits the limit. -/
theorem chunkLoop_join_noBT (limit : Nat) : ∀ (fuel : Nat) (rem : List Char),
    noBT rem = true → rem.length ≤ fuel → 1 ≤ limit →
    (chunkLoop limit fuel rem).flatten = rem ∧
      ∀ c ∈ chunkLoop limit fuel rem, c.length ≤ limit
  | 0, rem => by
    intro _ hlen _
    have : rem = [] := List.eq_nil_of_length_eq_zero (Nat.le_zero.mp hlen)
    subst this
    simp [chunkLoop]
  | fuel + 1, rem => by
    intro hbt hlen hlim
    rw [chunkLoop_succ]
    split
    · next hnil =>
      subst hnil
      simp
    · split
      · next hle =>
        simp
        omega
      · next hnil hgt =>
        have hsple : computeSplit limit (rem.take limit) ≤ limit :=
          computeSplit_le (by rw [List.length_take]; omega)
        have hsppos : 1 ≤ computeSplit limit (rem.take limit) := computeSplit_pos hlim
        have hctbt : noBT (rem.take (computeSplit limit (rem.take limit))) = true :=
          noBT_sub (List.take_subset _ _) hbt
        have heven : ¬ (countFences (rem.take (computeSplit limit (rem.take limit))) % 2 = 1) := by
          rw [countFences_of_noBT hctbt]
          omega
        rw [if_neg heven]
        have hrec := chunkLoop_join_noBT limit fuel
          (rem.drop (computeSplit limit (rem.take limit)))
          (noBT_sub (List.drop_subset _ _) hbt)
          (by rw [List.length_drop]; omega) hlim
        constructor
        · rw [List.flatten_cons, hrec.1, List.take_append_drop]
        · intro c hc
          rcases List.mem_cons.mp hc with hceq | hcmem
          · subst hceq
            rw [List.length_take]
            omega
          · exact hrec.2 c hcmem

/-- C1 (counterexample). For `T = "(fence)a \n\nbbbbbbbbbb"` (where
`(fence)` is a triple backtick) and `L = 10` the code returns the pieces
`[(fence)a\n(fence), (fence)\nbbbbbb\n(fence), (fence)\nbbbb]`: the second
piece has length 14 > 10; the last piece has an odd fence count; and
removing the four inserted repair markers (the `"\n"++fence` appended to
pieces 1 and 2, the `fence++"\n"` prepended to pieces 2 and 3) yields
`(fence)abbbbbbbbbb`, which is not the input — the `" \n\n"` was destroyed
by the `rstrip` in the repair path. So all three clauses of the claim fail. -/
theorem chunk_for_discord_cex :
    chunk_for_discord "```a \n\nbbbbbbbbbb".toList 10 =
      ["```a\n```".toList, "```\nbbbbbb\n```".toList, "```\nbbbb".toList] ∧
    ¬ (∀ c ∈ chunk_for_discord "```a \n\nbbbbbbbbbb".toList 10, c.length ≤ 10) ∧
    ¬ (∀ c ∈ chunk_for_discord "```a \n\nbbbbbbbbbb".toList 10,
        countFences c % 2 = 0) ∧
    ("```a\n```".toList.take 4 ++ (("```\nbbbbbb\n```".toList.drop 4).take 6) ++
        "```\nbbbb".toList.drop 4) ≠ "```a \n\nbbbbbbbbbb".toList := by
  decide

/-- C1 (amended). For every text `T` and limit `L ≥ 1`: every piece is at
most `L + 4` characters long (the appended closing fence may push a piece
past `L`); every piece except possibly the last has an even (balanced)
fence count (the final piece is unbalanced when `T` is); and for texts
without backticks every piece is at most `L` long and the plain
concatenation of the pieces reproduces `T` exactly (no repair markers are
inserted). -/
theorem chunk_for_discord_amended (T : List Char) (L : Nat) (hL : 1 ≤ L) :
    (∀ c ∈ chunk_for_discord T L, c.length ≤ L + 4) ∧
    (∀ c ∈ (chunk_for_discord T L).dropLast, countFences c % 2 = 0) ∧
    (noBT T = true →
      (chunk_for_discord T L).flatten = T ∧
        ∀ c ∈ chunk_for_discord T L, c.length ≤ L) := by
  unfold chunk_for_discord
  split
  · next hshort =>
    split
    · next hnil =>
      exact ⟨by simp, by simp, fun _ => ⟨by simp [hnil], by simp⟩⟩
    · next hnil =>
      refine ⟨?_, by simp, fun _ => ⟨by simp, ?_⟩⟩
      · intro c hc
        rw [List.mem_singleton] at hc
        subst hc
        omega
      · intro c hc
        rw [List.mem_singleton] at hc
        subst hc
        exact hshort
  · next hlong =>
    refine ⟨chunkLoop_length_le L T.length T, chunkLoop_nonlast_even L T.length T, ?_⟩
    intro hbt
    exact chunkLoop_join_noBT L T.length T hbt (Nat.le_refl _) hL

/-- Witness for the amended C1 at `T = "hello world"`, `L = 7`. -/
theorem chunk_for_discord_amended_witness :
    (∀ c ∈ chunk_for_discord "hello world".toList 7, c.length ≤ 7 + 4) ∧
    (∀ c ∈ (chunk_for_discord "hello world".toList 7).dropLast,
      countFences c % 2 = 0) ∧
    ((chunk_for_discord "hello world".toList 7).flatten = "hello world".toList ∧
      ∀ c ∈ chunk_for_discord "hello world".toList 7, c.length ≤ 7) := by
  have h := chunk_for_discord_amended "hello world".toList 7 (by decide)
  exact ⟨h.1, h.2.1, h.2.2 (by decide)⟩

/-- C4 (counterexample). With previous content `"a"` and new reconstructed
content `"a\nb"` — a strict extension whose appended suffix is `"\nb"` —
the emitted delta is `"b"`, not the appended suffix: `feed` passes the
delta through Python `.strip()`. -/
theorem ob_feed_cex :
    "a\nb".toList = "a".toList ++ "\nb".toList ∧
    (ob_feed ⟨"a".toList⟩ "a\nb".toList).2 = "b".toList ∧
    "b".toList ≠ "\nb".toList := by
  decide

/-- C4 (amended). If the new content extends the previous one, the emitted
delta is the appended suffix with surrounding whitespace stripped; if the
new content does not have the old content as a prefix, the delta is the
entire new content, again whitespace-stripped; unchanged content yields an
empty delta. -/
theorem ob_feed_amended (last s cur : List Char) :
    (s ≠ [] → (ob_feed ⟨last⟩ (last ++ s)).2 = stripL s) ∧
    (¬ last <+: cur → (ob_feed ⟨last⟩ cur).2 = stripL cur) ∧
    (ob_feed ⟨last⟩ last).2 = [] := by
  refine ⟨?_, ?_, ?_⟩
  · intro _
    have hp : last.isPrefixOf (last ++ s) = true :=
      List.isPrefixOf_iff_prefix.mpr (List.prefix_append last s)
    simp [ob_feed, hp, List.drop_left]
  · intro hnp
    have hp : last.isPrefixOf cur = false := by
      rw [Bool.eq_false_iff]
      intro hc
      exact hnp ( List.isPrefixOf_iff_prefix.mp hc)
    simp [ob_feed, hp]
  · have hp : last.isPrefixOf last = true :=
      List.isPrefixOf_iff_prefix.mpr (List.prefix_refl last)
    simp [ob_feed, hp, List.drop_length]
    rfl

/-- Witness for the amended C4 at `last = "a"`, `s = " b "`, `cur = "x"`. -/
theorem ob_feed_amended_witness :
    ((ob_feed ⟨"a".toList⟩ ("a".toList ++ " b ".toList)).2 = stripL " b ".toList) ∧
    ((ob_feed ⟨"a".toList⟩ "x".toList).2 = stripL "x".toList) ∧
    (ob_feed ⟨"a".toList⟩ "a".toList).2 = [] := by
  have h := ob_feed_amended "a".toList " b ".toList "x".toList
  refine ⟨h.1 (by decide), h.2.1 ?_, h.2.2⟩
  intro hp
  exact absurd ( List.isPrefixOf_iff_prefix.mpr hp) (by decide)

/-- C8 (confirmed). `get_statusbar` inspects only the last rendered row:
any two screens with the same last row agree; the result is the stripped
last row exactly when its lower-cased form contains one of the fixed
keywords, and `none` exactly when it contains none of them. -/
theorem get_statusbar_spec (d₁ d₂ : List (List Char)) (r : List Char) :
    get_statusbar (d₁ ++ [r]) = get_statusbar (d₂ ++ [r]) ∧
    (∀ s, get_statusbar (d₁ ++ [r]) = some s ↔
      (s = stripL r ∧ ∃ kw ∈ statusbarKeywords,
        containsSub (lowerL (stripL r)) kw = true)) ∧
    (get_statusbar (d₁ ++ [r]) = none ↔
      ∀ kw ∈ statusbarKeywords, containsSub (lowerL (stripL r)) kw = false) ∧
    get_statusbar [] = none := by
  have key : ∀ d : List (List Char), get_statusbar (d ++ [r]) =
      if statusbarKeywords.any (fun kw => containsSub (lowerL (stripL r)) kw)
      then some (stripL r) else none := by
    intro d
    unfold get_statusbar
    rw [List.getLast?_concat]
  refine ⟨(key d₁).trans (key d₂).symm, ?_, ?_, rfl⟩
  · intro s
    rw [key d₁]
    by_cases h : statusbarKeywords.any (fun kw => containsSub (lowerL (stripL r)) kw) = true
    · rw [if_pos h]
      rw [List.any_eq_true] at h
      constructor
      · intro hs
        exact ⟨(Option.some_injective _ hs).symm, h⟩
      · intro hs
        rw [hs.1]
    · rw [if_neg h]
      rw [List.any_eq_true] at h
      push_neg at h
      constructor
      · intro hs
        cases hs
      · intro hs
        obtain ⟨kw, hkw, hc⟩ := hs.2
        exact absurd hc (by simpa using h kw hkw)
  · rw [key d₁]
    by_cases h : statusbarKeywords.any (fun kw => containsSub (lowerL (stripL r)) kw) = true
    · rw [if_pos h]
      constructor
      · intro hs
        cases hs
      · intro hall
        rw [List.any_eq_true] at h
        obtain ⟨kw, hkw, hc⟩ := h
        rw [hall kw hkw] at hc
        cases hc
    · rw [if_neg h]
      rw [List.any_eq_true] at h
      push_neg at h
      constructor
      · intro _ kw hkw
        simpa using h kw hkw
      · intro _
        rfl

/-- C5 (confirmed). Buffering rules of the stream formatter: an assistant
event with non-empty text is returned at once and discards the delta
buffer; a delta event appends and flushes exactly when the buffer reaches
the flush threshold (`bd1` at/over it, `bd2` under it); a result event
flushes whatever remains regardless of size (`br1` non-empty, `br2` empty)
and updates the formatter's status snapshot; an error event bypasses the
buffer and is returned at once with the error prefix. -/
theorem stream_buffer_feed_spec
    (ba bd1 bd2 br1 br2 be : StreamBuffer) (f : StreamOutputFormatter)
    (ea ed er ee : StreamEvent)
    (ha : ea.type = "assistant") (hac : ea.content ≠ "")
    (hd : ed.type = "content_block_delta")
    (hth1 : bd1.flush_threshold ≤ bd1.content_buffer.length + ed.content.length)
    (hth2 : bd2.content_buffer.length + ed.content.length < bd2.flush_threshold)
    (hr : er.type = "result")
    (hne : br1.content_buffer ≠ "") (hemp : br2.content_buffer = "")
    (he : ee.type = "error") :
    sb_feed ba ea =
      ({ ba with is_streaming := false, content_buffer := "" }, some ea.content) ∧
    sb_feed bd1 ed =
      ({ bd1 with
          is_streaming := true
          content_buffer := ""
          last_flush := bd1.content_buffer ++ ed.content },
       some (bd1.content_buffer ++ ed.content)) ∧
    sb_feed bd2 ed =
      ({ bd2 with
          is_streaming := true
          content_buffer := bd2.content_buffer ++ ed.content }, none) ∧
    sb_feed br1 er =
      ({ br1 with
          is_streaming := false
          content_buffer := ""
          last_flush := br1.content_buffer }, some br1.content_buffer) ∧
    sb_feed br2 er = ({ br2 with is_streaming := false }, none) ∧
    (fmt_feed f er).1.status = StatusInfo.from_event er ∧
    sb_feed be ee =
      ({ be with is_streaming := false }, some ("**Error:** " ++ ee.content)) := by
  have hda : ("content_block_delta" : String) ≠ "assistant" := by decide
  have hra : ("result" : String) ≠ "assistant" := by decide
  have hrd : ("result" : String) ≠ "content_block_delta" := by decide
  have hea : ("error" : String) ≠ "assistant" := by decide
  have hed : ("error" : String) ≠ "content_block_delta" := by decide
  have her : ("error" : String) ≠ "result" := by decide
  refine ⟨?_, ?_, ?_, ?_, ?_, ?_, ?_⟩
  · simp [sb_feed, ha, hac]
  · simp [sb_feed, hd, hda, sb_flush, String.length_append]
    omega
  · have hlt : ¬ (bd2.flush_threshold ≤ (bd2.content_buffer ++ ed.content).length) := by
      rw [String.length_append]
      omega
    simp only [sb_feed, hd, hda, if_neg hlt, if_pos, if_false]
  · simp [sb_feed, hr, hra, hrd, sb_flush, hne]
  · simp [sb_feed, hr, hra, hrd, hemp]
  · rcases hsb : sb_feed f.buffer er with ⟨b', c'⟩
    simp [fmt_feed, hr, hsb]
  · simp [sb_feed, he, hea, hed, her]

/-- Witness for C5 at concrete buffers and events (flush threshold 5). -/
theorem stream_buffer_feed_spec_witness :
    sb_feed { flush_threshold := 5 } { type := "assistant", content := "hi" } =
      ({ flush_threshold := 5, is_streaming := false, content_buffer := "" }, some "hi") ∧
    sb_feed { flush_threshold := 5, content_buffer := "abc" }
        { type := "content_block_delta", content := "de" } =
      ({ flush_threshold := 5, is_streaming := true, content_buffer := "", last_flush := "abcde" }, some "abcde") ∧
    sb_feed { flush_threshold := 5, content_buffer := "ab" }
        { type := "content_block_delta", content := "de" } =
      ({ flush_threshold := 5, is_streaming := true, content_buffer := "abde" }, none) ∧
    sb_feed { flush_threshold := 5, content_buffer := "ab" } { type := "result" } =
      ({ flush_threshold := 5, is_streaming := false, content_buffer := "", last_flush := "ab" }, some "ab") ∧
    sb_feed { flush_threshold := 5 } { type := "result" } =
      ({ flush_threshold := 5, is_streaming := false }, none) ∧
    (fmt_feed {} { type := "result", model := some "opus" }).1.status =
      StatusInfo.from_event { type := "result", model := some "opus" } ∧
    sb_feed { flush_threshold := 5 } { type := "error", content := "boom" } =
      ({ flush_threshold := 5, is_streaming := false }, some ("**Error:** " ++ "boom")) := by
  have h := stream_buffer_feed_spec
    { flush_threshold := 5 }
    { flush_threshold := 5, content_buffer := "abc" }
    { flush_threshold := 5, content_buffer := "ab" }
    { flush_threshold := 5, content_buffer := "ab" }
    { flush_threshold := 5 }
    { flush_threshold := 5 }
    {}
    { type := "assistant", content := "hi" }
    { type := "content_block_delta", content := "de" }
    { type := "result", model := some "opus" }
    { type := "error", content := "boom" }
    rfl (by decide) rfl (by decide) (by decide) rfl (by decide) rfl rfl
  simpa using h

/-- C7 (counterexample). A final-result event that carries usage metadata
but no session id (`data.get("session_id")` returned `None`) is NOT folded
into the running totals during `send_message`: the guard
`if event.type == "result" and event.session_id:` skips it, so the totals
stay 0 instead of gaining the event's 5/7 tokens and cost 1. -/
theorem fold_result_cex :
    (send_message {} [{ type := "result", content := "done", input_tokens := 5, output_tokens := 7, cost_usd := 1 }] Option.none).1.total_input_tokens = 0 ∧
    (send_message {} [{ type := "result", content := "done", input_tokens := 5, output_tokens := 7, cost_usd := 1 }] Option.none).1.total_output_tokens = 0 ∧
    (send_message {} [{ type := "result", content := "done", input_tokens := 5, output_tokens := 7, cost_usd := 1 }] Option.none).1.total_cost_usd = 0 ∧
    (send_message {} [{ type := "result", content := "done", input_tokens := 5, output_tokens := 7, cost_usd := 1 }] Option.none).1.session_id = Option.none ∧
    (5 : Int) ≠ 0 := by
  decide

/-- C7 (amended). A final-result event carrying a truthy session id is
folded: the id replaces the stored one, the model replaces the stored
model only when the event carries a truthy one, and tokens and cost are
added to the totals; a result event without a truthy session id leaves the
session unchanged. Composed through `send_message` for a one-event
stream. -/
theorem fold_result_amended (s1 s2 : StreamSession) (e1 e2 : StreamEvent)
    (hr1 : e1.type = "result") (ht1 : truthy e1.session_id = true)
    (hr2 : e2.type = "result") (ht2 : truthy e2.session_id = false)
    (hb : is_busy s1 = false) :
    fold_result_event s1 e1 = { s1 with
      session_id := e1.session_id
      model := if truthy e1.model then e1.model else s1.model
      total_input_tokens := s1.total_input_tokens + e1.input_tokens
      total_output_tokens := s1.total_output_tokens + e1.output_tokens
      total_cost_usd := s1.total_cost_usd + e1.cost_usd } ∧
    fold_result_event s2 e2 = s2 ∧
    (send_message s1 [e1] Option.none).1 =
      { fold_result_event { s1 with process := some {} } e1 with process := Option.none } := by
  refine ⟨?_, ?_, ?_⟩
  · rw [fold_result_event, if_pos ⟨hr1, ht1⟩]
  · rw [fold_result_event, if_neg]
    intro hand
    rw [ht2] at hand
    cases hand.2
  · simp [send_message, hb, consumedEvents]

/-- Witness for the amended C7. -/
theorem fold_result_amended_witness :
    fold_result_event {} { type := "result", session_id := some "s1", input_tokens := 5, output_tokens := 7, cost_usd := 1 } =
      { session_id := some "s1"
        model := if truthy (Option.none : Option String) then Option.none else Option.none
        total_input_tokens := 0 + 5
        total_output_tokens := 0 + 7
        total_cost_usd := 0 + 1 } ∧
    fold_result_event {} { type := "result", input_tokens := 5 } = {} ∧
    (send_message {} [{ type := "result", session_id := some "s1", input_tokens := 5, output_tokens := 7, cost_usd := 1 }] Option.none).1 =
      { fold_result_event { process := some {} } { type := "result", session_id := some "s1", input_tokens := 5, output_tokens := 7, cost_usd := 1 }
        with process := Option.none } := by
  exact fold_result_amended {} {}
    { type := "result", session_id := some "s1", input_tokens := 5, output_tokens := 7, cost_usd := 1 }
    { type := "result", input_tokens := 5 }
    rfl (by decide) rfl (by decide) rfl

/-- C3 (confirmed). `send_message` on a busy session fails with the busy
error and leaves the session untouched (in particular no second subprocess
is spawned); `cancel` always leaves the session non-busy; and a
`send_message` issued after `cancel` succeeds, consuming the stream. -/
theorem send_message_busy_cancel (s t : StreamSession) (events : List StreamEvent)
    (ab : Option Nat) (hb : is_busy s = true) :
    send_message s events ab =
      (s, Except.error "Session is busy processing another request") ∧
    is_busy (cancel t) = false ∧
    (send_message (cancel t) events ab).2 = Except.ok (consumedEvents ab events) := by
  have hc : is_busy (cancel t) = false := by
    rcases hproc : t.process with _ | p
    · simp [cancel, is_busy, hproc]
    · rcases hrc : p.returncode with _ | rc
      · simp [cancel, is_busy, hproc, hrc]
      · simp [cancel, is_busy, hproc, hrc]
  refine ⟨by simp [send_message, hb], hc, by simp [send_message, hc]⟩

/-- Witness for C3: a busy session (running process), then cancelled. -/
theorem send_message_busy_cancel_witness :
    send_message { process := some {} } [] Option.none =
      ({ process := some {} },
       Except.error "Session is busy processing another request") ∧
    is_busy (cancel { process := some ({} : Proc) }) = false ∧
    (send_message (cancel { process := some ({} : Proc) }) [] Option.none).2 =
      Except.ok (consumedEvents Option.none []) :=
  send_message_busy_cancel { process := some {} } { process := some {} } [] Option.none rfl

/-- C10 (confirmed). Whenever `send_message` actually runs (the session was
not busy), the `finally:` block clears the process handle on every exit
path — normal end of the event stream or an early abort — so the session
is not busy afterwards and can accept the next message. -/
theorem send_message_clears_process (s : StreamSession) (events : List StreamEvent)
    (ab : Option Nat) (hb : is_busy s = false) :
    (send_message s events ab).1.process = Option.none ∧
    is_busy (send_message s events ab).1 = false := by
  have h1 : (send_message s events ab).1.process = Option.none := by
    simp [send_message, hb]
  refine ⟨h1, ?_⟩
  unfold is_busy
  rw [h1]

/-- Witness for C10 (stream aborted after one event). -/
theorem send_message_clears_process_witness :
    (send_message {} [{ type := "system" }, { type := "result" }] (some 1)).1.process =
      Option.none ∧
    is_busy (send_message {} [{ type := "system" }, { type := "result" }] (some 1)).1 =
      false :=
  send_message_clears_process {} [{ type := "system" }, { type := "result" }] (some 1) rfl

/-- Updating the same key twice with the same value is one update. -/
theorem fnSet_idem {α β : Type} [DecidableEq α] (f : α → β) (k : α) (v : β) :
    fnSet (fnSet f k v) k v = fnSet f k v := by
  funext u
  unfold fnSet
  split <;> rfl

/-- `SessionManager.stop_session` is idempotent. -/
theorem pty_stop_idem (m : PtyMgr) (uid : String) :
    pty_stop_session (pty_stop_session m uid) uid = pty_stop_session m uid := by
  cases h : m.sessions uid with
  | none =>
    unfold pty_stop_session
    rw [h]
    simp only
    rw [h]
    simp [fnSet_idem]
  | some s =>
    unfold pty_stop_session
    rw [h]
    simp only
    rw [show (fnSet m.sessions uid Option.none) uid = Option.none by simp [fnSet]]
    simp [fnSet_idem]

/-- `StreamSessionManager.stop_session` is idempotent. -/
theorem stream_stop_idem (ms : StreamMgr) (uid : String) :
    stream_stop_session (stream_stop_session ms uid) uid = stream_stop_session ms uid := by
  unfold stream_stop_session
  simp [fnSet_idem]

/-- C9 (confirmed). `stop_session` is idempotent in both variants; it
removes the session entry, terminates its transport, deletes only the
workspace's temp state — the workspace itself survives with its other
contents unchanged — and touches no other user's workspace. -/
theorem stop_session_spec (m : PtyMgr) (ms : StreamMgr) (uid : String)
    (s : PtySessionModel) (w : Workspace)
    (hsess : m.sessions uid = some s) (hw : m.fs uid = some w) :
    pty_stop_session (pty_stop_session m uid) uid = pty_stop_session m uid ∧
    stream_stop_session (stream_stop_session ms uid) uid = stream_stop_session ms uid ∧
    (pty_stop_session m uid).fs uid = some { hasTmp := false, other := w.other } ∧
    (∀ v, v ≠ uid → (pty_stop_session m uid).fs v = m.fs v) ∧
    (pty_stop_session m uid).sessions uid = Option.none ∧
    s.tid ∉ (pty_stop_session m uid).live := by
  refine ⟨pty_stop_idem m uid, stream_stop_idem ms uid, ?_, ?_, ?_, ?_⟩
  · unfold pty_stop_session
    rw [hsess]
    simp [cleanup_sandbox_fs, hw]
  · intro v hv
    unfold pty_stop_session
    rw [hsess]
    simp [cleanup_sandbox_fs, hv]
  · unfold pty_stop_session
    rw [hsess]
    simp [fnSet]
  · unfold pty_stop_session
    rw [hsess]
    simp

/-- Witness for C9 on the one-session sample manager. -/
theorem stop_session_spec_witness :
    pty_stop_session (pty_stop_session samplePtyMgr "A") "A" =
      pty_stop_session samplePtyMgr "A" ∧
    stream_stop_session (stream_stop_session sampleStreamMgr "A") "A" =
      stream_stop_session sampleStreamMgr "A" ∧
    (pty_stop_session samplePtyMgr "A").fs "A" =
      some { hasTmp := false, other := ["f.txt"] } ∧
    (∀ v, v ≠ "A" → (pty_stop_session samplePtyMgr "A").fs v = samplePtyMgr.fs v) ∧
    (pty_stop_session samplePtyMgr "A").sessions "A" = Option.none ∧
    (0 : Nat) ∉ (pty_stop_session samplePtyMgr "A").live :=
  stop_session_spec samplePtyMgr sampleStreamMgr "A" { tid := 0 }
    { hasTmp := true, other := ["f.txt"] } (by decide) (by decide)

/-- C2 (counterexample). In the streaming variant, `start(A); start(A)`
does not tear down and replace: the second call returns the session
created by the first one (object id 0) unchanged, allocates no fresh
session (the id counter stays at 1), and the table still maps "A" to the
original session. -/
theorem start_session_twice_cex :
    (stream_start_session emptyStreamMgr "A" AuthMethod.api_key).2 =
      Except.ok ({ sid := 0 } : StreamSession) ∧
    (stream_start_session (stream_start_session emptyStreamMgr "A" AuthMethod.api_key).1
        "A" AuthMethod.api_key).2 = Except.ok ({ sid := 0 } : StreamSession) ∧
    (stream_start_session (stream_start_session emptyStreamMgr "A" AuthMethod.api_key).1
        "A" AuthMethod.api_key).1.nextSid = 1 ∧
    (stream_start_session (stream_start_session emptyStreamMgr "A" AuthMethod.api_key).1
        "A" AuthMethod.api_key).1.sessions "A" = some { sid := 0 } := by
  refine ⟨rfl, ?_, ?_, ?_⟩ <;>
    simp [stream_start_session, emptyStreamMgr, fnSet]

/-- C2 (amended). After `start(A); start(A)` at most one live transport
exists for A in either variant, but the variants differ: the streaming
variant returns the existing session unchanged instead of replacing it,
while the PTY variant tears the existing session down (removing its entry
and terminating its transport) before attempting — and, with the current
`setup_sandbox` call, failing — to create a fresh one. -/
theorem start_session_twice_amended (ms : StreamMgr) (mp : PtyMgr) (uid : String)
    (auth : AuthMethod) (s : StreamSession) (p : PtySessionModel)
    (hs : ms.sessions uid = some s) (hp : mp.sessions uid = some p) :
    stream_start_session ms uid auth = (ms, Except.ok s) ∧
    (pty_start_session mp uid auth).1.sessions uid = Option.none ∧
    p.tid ∉ (pty_start_session mp uid auth).1.live := by
  have hfst : (pty_start_session mp uid auth).1 = pty_stop_session mp uid := by
    unfold pty_start_session
    by_cases hauth : auth = AuthMethod.none <;> simp [hauth, hp]
  refine ⟨by simp [stream_start_session, hs], ?_, ?_⟩
  · rw [hfst]
    unfold pty_stop_session
    rw [hp]
    simp [fnSet]
  · rw [hfst]
    unfold pty_stop_session
    rw [hp]
    simp

/-- Witness for the amended C2 on the sample managers. -/
theorem start_session_twice_amended_witness :
    stream_start_session sampleStreamMgr "A" AuthMethod.api_key =
      (sampleStreamMgr, Except.ok ({ sid := 0 } : StreamSession)) ∧
    (pty_start_session samplePtyMgr "A" AuthMethod.api_key).1.sessions "A" =
      Option.none ∧
    (0 : Nat) ∉ (pty_start_session samplePtyMgr "A" AuthMethod.api_key).1.live :=
  start_session_twice_amended sampleStreamMgr samplePtyMgr "A" AuthMethod.api_key
    { sid := 0 } { tid := 0 } (by decide) (by decide)

/-- C6 (counterexample). With a session already present for "A": the
streaming variant's `start_session` under resolved auth `NONE` succeeds
(returns the stored session, never consulting authentication) instead of
failing; the PTY variant does fail with the authentication error, but the
session table is changed — the pre-existing entry for "A" is removed
before the auth check. -/
theorem start_session_noauth_cex :
    (stream_start_session sampleStreamMgr "A" AuthMethod.none).2 =
      Except.ok ({ sid := 0 } : StreamSession) ∧
    (pty_start_session samplePtyMgr "A" AuthMethod.none).2 =
      Except.error StartError.noAuth ∧
    samplePtyMgr.sessions "A" = some { tid := 0 } ∧
    (pty_start_session samplePtyMgr "A" AuthMethod.none).1.sessions "A" =
      Option.none := by
  refine ⟨rfl, rfl, by decide, ?_⟩
  simp [pty_start_session, pty_stop_session, samplePtyMgr, fnSet]

/-- C6 (amended). When no session exists for the user id, `start_session`
under resolved auth `NONE` fails with the authentication error and leaves
the manager unchanged, in both variants. When a session already exists,
the streaming variant returns it without consulting authentication, while
the PTY variant tears it down first and then fails. -/
theorem start_session_noauth_amended (ms ms2 : StreamMgr) (mp mp2 : PtyMgr)
    (uid : String) (s2 : StreamSession) (p2 : PtySessionModel)
    (hs : ms.sessions uid = Option.none) (hp : mp.sessions uid = Option.none)
    (hs2 : ms2.sessions uid = some s2) (hp2 : mp2.sessions uid = some p2) :
    stream_start_session ms uid AuthMethod.none =
      (ms, Except.error StartError.noAuth) ∧
    pty_start_session mp uid AuthMethod.none =
      (mp, Except.error StartError.noAuth) ∧
    stream_start_session ms2 uid AuthMethod.none = (ms2, Except.ok s2) ∧
    (pty_start_session mp2 uid AuthMethod.none).2 =
      Except.error StartError.noAuth ∧
    (pty_start_session mp2 uid AuthMethod.none).1.sessions uid = Option.none := by
  refine ⟨?_, ?_, ?_, ?_, ?_⟩
  · simp [stream_start_session, hs]
  · simp [pty_start_session, hp]
  · simp [stream_start_session, hs2]
  · simp [pty_start_session, hp2]
  · simp [pty_start_session, hp2, pty_stop_session, fnSet]

/-- Witness for the amended C6. -/
theorem start_session_noauth_amended_witness :
    stream_start_session emptyStreamMgr "A" AuthMethod.none =
      (emptyStreamMgr, Except.error StartError.noAuth) ∧
    pty_start_session (pty_stop_session samplePtyMgr "A") "A" AuthMethod.none =
      (pty_stop_session samplePtyMgr "A", Except.error StartError.noAuth) ∧
    stream_start_session sampleStreamMgr "A" AuthMethod.none =
      (sampleStreamMgr, Except.ok ({ sid := 0 } : StreamSession)) ∧
    (pty_start_session samplePtyMgr "A" AuthMethod.none).2 =
      Except.error StartError.noAuth ∧
    (pty_start_session samplePtyMgr "A" AuthMethod.none).1.sessions "A" =
      Option.none :=
  start_session_noauth_amended emptyStreamMgr sampleStreamMgr
    (pty_stop_session samplePtyMgr "A") samplePtyMgr "A" { sid := 0 } { tid := 0 }
    (by decide) (by simp [pty_stop_session, samplePtyMgr, fnSet]) (by decide) (by decide)
